import Mathlib

/-!
Verification development for the microgate adaptive HTTP reverse-proxy gateway.

Each Go component relevant to the checked properties is shallowly embedded:
Go `float64` values become `ℚ` (exact rational arithmetic), `time.Time` /
`time.Duration` become `ℚ` timestamps in seconds, Go maps become functions
into `Option`, and Go strings become Lean `String` (or `List Char` where
character-level reasoning on prefixes is needed).
-/

namespace Microgate

/-! ## HTTP header maps (Go `http.Header`, restricted to single-valued use) -/

/-- A header map: an association list of key/value pairs.
`Get` returns the first value for the key, or `""` when absent,
matching Go's `http.Header.Get` for the single-valued headers used here. -/
structure HeaderMap where
  entries : List (String × String)
deriving DecidableEq

/-- Go `http.Header.Get`: first value for the key, `""` if missing. -/
def HeaderMap.get (h : HeaderMap) (k : String) : String :=
  match h.entries.find? (fun e => e.1 == k) with
  | some e => e.2
  | none => ""

/-- Go `http.Header.Set`: replace all values for the key with a single value. -/
def HeaderMap.set (h : HeaderMap) (k v : String) : HeaderMap :=
  ⟨(k, v) :: h.entries.filter (fun e => !(e.1 == k))⟩

/-- The empty header map. -/
def HeaderMap.empty : HeaderMap := ⟨[]⟩

/-! ## Reverse proxy core (`proxy.NewProxy`, src/unnamed/part_001 lines 42–66)

The per-request handler closure: it asks the load balancer for a backend,
answers 503 when none is available, 500 when the backend URL fails to parse,
and otherwise forwards the request through `httputil.NewSingleHostReverseProxy`
with a director that sets the `X-Forwarded-Host` and `X-Gateway` REQUEST
headers.  `parseOk` mirrors `url.Parse(backend)` succeeding. -/

/-- Result of one run of the proxy's per-request handler. -/
inductive ProxyOutcome where
  /-- The handler wrote an error response itself (`http.Error`). -/
  | errorResponse (status : Nat) (body : String)
  /-- The request was forwarded: final outbound request headers and the
  response-header map as left by the gateway (the reverse proxy relays the
  backend's response into it; the gateway itself adds nothing). -/
  | forward (reqHeaders : HeaderMap) (respHeaders : HeaderMap)
deriving DecidableEq

/-- The proxy handler body from `NewProxy` (part_001 lines 42–66). -/
def proxyHandle (backend : String) (parseOk : Bool) (host : String)
    (reqHeaders respHeaders : HeaderMap) : ProxyOutcome :=
  if backend = "" then
    .errorResponse 503 "No healthy backends available"
  else if !parseOk then
    .errorResponse 500 "Bad backend URL"
  else
    .forward ((reqHeaders.set "X-Forwarded-Host" host).set "X-Gateway" "tanmay-gateway")
      respHeaders

/-! ## Token bucket (`middleware.bucket`, src/unnamed/part_007 lines 94–122) -/

/-- `middleware.bucket`: fractional token count, capacity, refill rate in
tokens per second, and the last-refill timestamp (seconds). -/
structure Bucket where
  tokens : ℚ
  maxTokens : ℚ
  refillRate : ℚ
  lastRefill : ℚ
deriving DecidableEq

/-- `bucket.refill`: add `elapsed · refillRate` tokens, cap at `maxTokens`,
stamp `lastRefill = now`. -/
def Bucket.refill (b : Bucket) (now : ℚ) : Bucket :=
  let elapsed := now - b.lastRefill
  let t := b.tokens + elapsed * b.refillRate
  { b with
    tokens := if t > b.maxTokens then b.maxTokens else t
    lastRefill := now }

/-- `bucket.allow`: refill, then consume one token when at least one is
available. Returns the decision and the updated bucket. -/
def Bucket.allow (b : Bucket) (now : ℚ) : Bool × Bucket :=
  let b := b.refill now
  if b.tokens ≥ 1 then (true, { b with tokens := b.tokens - 1 })
  else (false, b)

/-! ## Middleware chain (`middleware.Chain`, src/unnamed/part_006 lines 11–16)

The Go loop runs `i` from `len(middlewares)-1` down to `0`, each step doing
`handler = middlewares[i](handler)`; we embed it as a left fold over the
reversed stage list. -/

/-- `middleware.Chain`. `H` stands for `http.Handler`; a middleware is a
handler transformer. -/
def Chain {H : Type} (handler : H) (middlewares : List (H → H)) : H :=
  middlewares.reverse.foldl (fun h m => m h) handler

/-- Events observable while a request traverses the chain: stage `i` acting
on the request, the terminal handler running, stage `i` acting on the
response. -/
inductive TraceEvent where
  | enter (i : Nat)
  | core
  | exit (i : Nat)
deriving DecidableEq

/-- A handler modelled as a trace transformer: it appends the events it
produces to the log accumulated so far. -/
abbrev TraceHandler := List TraceEvent → List TraceEvent

/-- Stage `i` as a tracing middleware: record `enter i`, run the inner
handler, record `exit i` on the way back out. -/
def traceStage (i : Nat) : TraceHandler → TraceHandler :=
  fun next log => next (log ++ [TraceEvent.enter i]) ++ [TraceEvent.exit i]

/-- The terminal handler: records that the core ran. -/
def coreHandler : TraceHandler :=
  fun log => log ++ [TraceEvent.core]

/-! ## Analyzer baselines (`analytics.RouteBaseline` / `analytics.BackendBaseline`) -/

/-- `analytics.RouteBaseline` (analyzer.go lines 22–33). -/
structure RouteBaseline where
  Route : String
  MeanRate : ℚ
  StdDevRate : ℚ
  MeanErrorRate : ℚ
  StdDevError : ℚ
  MeanLatencyMs : ℚ
  StdDevLatency : ℚ
  P99LatencyMs : ℚ
  SampleSize : Nat
deriving DecidableEq

/-- `analytics.BackendBaseline` (analyzer.go lines 35–41). -/
structure BackendBaseline where
  Backend : String
  MeanLatencyMs : ℚ
  MeanErrorRate : ℚ
  StdDevError : ℚ
  SampleSize : Nat
deriving DecidableEq

/-- The analyzer as seen by the circuit breaker: whether it has sufficient
data, and its per-backend baseline lookup (`GetBackendBaseline`, which
returns `nil` for unknown backends). -/
structure AnalyzerView where
  hasSufficientData : Bool
  getBackendBaseline : String → Option BackendBaseline

/-! ## Circuit breaker (`middleware.CircuitBreaker`, circuitbreaker.go) -/

/-- The `iota` state constants `StateClosed`, `StateOpen`, `StateHalfOpen`. -/
inductive CircuitState where
  | StateClosed
  | StateOpen
  | StateHalfOpen
deriving DecidableEq

/-- `middleware.CircuitBreaker` (circuitbreaker.go lines 24–33).
`analyzer = none` models a nil analyzer pointer; times are rationals in
seconds. -/
structure CircuitBreaker where
  state : CircuitState
  failureCount : Nat
  threshold : Nat
  timeout : ℚ
  lastFailure : ℚ
  analyzer : Option AnalyzerView
  totalCount : Nat

/-- `CircuitBreaker.dynamicThreshold` (lines 69–85). -/
def CircuitBreaker.dynamicThreshold (cb : CircuitBreaker) (backend : String) : ℚ :=
  match cb.analyzer with
  | none => 1
  | some a =>
    match a.getBackendBaseline backend with
    | none => 0.5
    | some baseline =>
      if baseline.SampleSize < 2 then 0.5
      else
        let threshold := baseline.MeanErrorRate * 5
        if threshold < 0.05 then 0.05 else threshold

/-- `CircuitBreaker.shouldTrip` (lines 58–66). -/
def CircuitBreaker.shouldTrip (cb : CircuitBreaker) (backend : String) : Bool :=
  match cb.analyzer with
  | some a =>
    if a.hasSufficientData ∧ cb.totalCount > 0 then
      decide ((cb.failureCount : ℚ) / (cb.totalCount : ℚ) > cb.dynamicThreshold backend)
    else
      decide (cb.failureCount ≥ cb.threshold)
  | none => decide (cb.failureCount ≥ cb.threshold)

/-- The pre-phase of `CircuitBreaker.Middleware` (lines 91–109): in `OPEN`,
either move to `HALF_OPEN` when the timeout has elapsed or reject with 503
(`some 503`); in `CLOSED`/`HALF_OPEN`, fall through (`none`). -/
def CircuitBreaker.preCheck (cb : CircuitBreaker) (now : ℚ) :
    CircuitBreaker × Option Nat :=
  match cb.state with
  | CircuitState.StateOpen =>
    if now - cb.lastFailure > cb.timeout then
      ({ cb with state := CircuitState.StateHalfOpen }, none)
    else
      (cb, some 503)
  | _ => (cb, none)

/-- The recording phase of `CircuitBreaker.Middleware` (lines 119–138),
run after the inner chain returned with observed status `status`. -/
def CircuitBreaker.record (cb : CircuitBreaker) (now : ℚ) (backend : String)
    (status : Nat) : CircuitBreaker :=
  let cb := { cb with totalCount := cb.totalCount + 1 }
  if status ≥ 500 then
    let cb := { cb with failureCount := cb.failureCount + 1, lastFailure := now }
    if cb.state = CircuitState.StateHalfOpen then
      { cb with state := CircuitState.StateOpen }
    else if cb.shouldTrip backend then
      { cb with state := CircuitState.StateOpen }
    else
      cb
  else
    { cb with failureCount := 0, totalCount := 0, state := CircuitState.StateClosed }

/-- Result of one full pass of a request through the breaker middleware. -/
structure CBStepResult where
  cb : CircuitBreaker
  responseStatus : Nat
  innerInvoked : Bool

/-- One full pass of `CircuitBreaker.Middleware`'s handler: the pre-check at
time `tCheck`, then — unless rejected — the inner chain producing observed
status `innerStatus`, recorded at time `tRecord`. -/
def CircuitBreaker.middlewareStep (cb : CircuitBreaker) (tCheck tRecord : ℚ)
    (backend : String) (innerStatus : Nat) : CBStepResult :=
  match cb.preCheck tCheck with
  | (cb1, some s) => ⟨cb1, s, false⟩
  | (cb1, none) => ⟨cb1.record tRecord backend innerStatus, innerStatus, true⟩

/-! ## Weighted load balancer (`proxy.WeightedLoadBalancer`, weighted_lb.go) -/

/-- `proxy.computeWeight` (weighted_lb.go lines 127–140). -/
def computeWeight (avgLatencyMs errorRate : ℚ) : ℚ :=
  let avg := if avgLatencyMs < 1 then 1 else avgLatencyMs
  let latencyScore := 1 / avg
  let reliabilityScore :=
    if 1 - errorRate < 0.01 then 0.01 else 1 - errorRate
  latencyScore * reliabilityScore

/-- The raw (pre-normalization) weight the rebalance loop assigns to one
backend (weighted_lb.go lines 97–103). -/
def rawWeight (baseline : Option BackendBaseline) : ℚ :=
  match baseline with
  | none => 1
  | some b =>
    if b.SampleSize < 2 then 1
    else computeWeight b.MeanLatencyMs b.MeanErrorRate

/-- `WeightedLoadBalancer.Rebalance` (weighted_lb.go lines 87–123): compute
raw weights from the analyzer's backend baselines, then normalize so they
sum to 1 when the total is positive.  Returns the published weight table. -/
def Rebalance (backends : List String)
    (getBackendBaseline : String → Option BackendBaseline) :
    List (String × ℚ) :=
  let newWeights := backends.map (fun b => (b, rawWeight (getBackendBaseline b)))
  let totalWeight := (newWeights.map (fun p => p.2)).sum
  if totalWeight > 0 then
    newWeights.map (fun p => (p.1, p.2 / totalWeight))
  else
    newWeights

/-! ## Static rate limiter (`middleware.RateLimiter`, src/unnamed/part_007) -/

/-- `middleware.RateLimiter` (part_007 lines 127–132): per-client buckets
plus the construction parameters. The Go map becomes a function into
`Option`. -/
structure RateLimiter where
  buckets : String → Option Bucket
  maxTokens : ℚ
  refillRate : ℚ

/-- `middleware.NewRateLimiter` (part_007 lines 137–143). -/
def NewRateLimiter (maxTokens refillRate : ℚ) : RateLimiter :=
  { buckets := fun _ => none
    maxTokens := maxTokens
    refillRate := refillRate }

/-! ## Adaptive rate limiter (`middleware.AdaptiveRateLimiter`) -/

/-- `middleware.AdaptiveRateLimitConfig` (adaptive_ratelimit.go lines 14–20). -/
structure AdaptiveRateLimitConfig where
  Enabled : Bool
  Multiplier : ℚ
  MinLimit : ℚ
  MaxLimit : ℚ
  LearningPeriod : ℚ

/-- The per-route limit computed inside `AdaptiveRateLimiter.rebalance`
(adaptive_ratelimit.go lines 92–98): mean rate × multiplier, raised to
`MinLimit` when below it, then capped at `MaxLimit`. -/
def adaptiveLimit (cfg : AdaptiveRateLimitConfig) (baseline : RouteBaseline) : ℚ :=
  let limit := baseline.MeanRate * cfg.Multiplier
  let limit := if limit < cfg.MinLimit then cfg.MinLimit else limit
  if limit > cfg.MaxLimit then cfg.MaxLimit else limit

/-- The body of the `for route, baseline := range baselines` loop in
`AdaptiveRateLimiter.rebalance` (adaptive_ratelimit.go lines 87–109) for a
single entry, updating the `routeLimiters` map. -/
def rebalanceStep (cfg : AdaptiveRateLimitConfig)
    (m : String → Option RateLimiter) (entry : String × RouteBaseline) :
    String → Option RateLimiter :=
  let route := entry.1
  let baseline := entry.2
  if baseline.SampleSize < 5 then m
  else
    let limit := adaptiveLimit cfg baseline
    let refillRate := limit / 60
    match m route with
    | some existing =>
      if existing.maxTokens ≠ limit then
        fun r => if r = route then some (NewRateLimiter limit refillRate) else m r
      else m
    | none =>
      fun r => if r = route then some (NewRateLimiter limit refillRate) else m r

/-- `AdaptiveRateLimiter.rebalance` (adaptive_ratelimit.go lines 81–112):
fold the per-entry update over the analyzer's route-baseline snapshot
(`GetAllRouteBaselines`), given as an association list. -/
def rebalance (cfg : AdaptiveRateLimitConfig)
    (baselines : List (String × RouteBaseline))
    (routeLimiters : String → Option RateLimiter) :
    String → Option RateLimiter :=
  baselines.foldl (rebalanceStep cfg) routeLimiters

/-! ## Traffic recorder route normalization (`middleware.TrafficRecorder`)

Go strings are embedded as `List Char` so that prefix structure is explicit.
`NewTrafficRecorder` (traffic.go lines 23–35) sorts the configured prefixes
longest-first with `sort.Slice` (an arbitrary, unstable sort); we embed it
as insertion sort by the same `len(a) > len(b)`-induced order, and prove the
published result independent of which valid sort `sort.Slice` produced. -/

/-- The length-descending order `sort.Slice` is asked to establish. -/
def lenGE (a b : List Char) : Prop := b.length ≤ a.length

instance : DecidableRel lenGE := fun a b => by
  unfold lenGE; infer_instance

instance : IsTotal (List Char) lenGE :=
  ⟨fun a b => le_total b.length a.length⟩

instance : IsTrans (List Char) lenGE :=
  ⟨fun _ _ _ hab hbc => le_trans hbc hab⟩

/-- The sorted prefix list built by `NewTrafficRecorder`. -/
def sortRoutes (routePrefixes : List (List Char)) : List (List Char) :=
  List.insertionSort lenGE routePrefixes

/-- The match test of one iteration of `NormalizeRoute`'s loop
(traffic.go line 51): `strings.HasPrefix(path, prefix+"/") || path == prefix`. -/
def routeMatches (p path : List Char) : Bool :=
  (p ++ [ '/' ]).isPrefixOf path || path == p

/-- The loop of `NormalizeRoute` (traffic.go lines 50–55): first matching
entry of the recorder's sorted prefix list, or the raw path. -/
def firstMatch (routes : List (List Char)) (path : List Char) : List Char :=
  match routes with
  | [] => path
  | p :: rest => if routeMatches p path then p else firstMatch rest path

/-- `TrafficRecorder.NormalizeRoute` (traffic.go lines 49–56) over a
recorder built by `NewTrafficRecorder` from `routePrefixes`. -/
def NormalizeRoute (routePrefixes : List (List Char)) (path : List Char) :
    List Char :=
  firstMatch (sortRoutes routePrefixes) path

/-! ## Health checker (`health.HealthChecker`, health.go) -/

/-- `health.BackendStatus` (health.go lines 11–15); `LastCheck` is a
timestamp in seconds, `0` standing for Go's zero `time.Time`. -/
structure BackendStatus where
  URL : String
  Healthy : Bool
  LastCheck : ℚ
deriving DecidableEq

/-- `health.HealthChecker` state: the `backends` map and creation time. -/
structure HealthChecker where
  backends : String → Option BackendStatus
  startTime : ℚ

/-- `health.NewHealthChecker` (health.go lines 29–45): every configured URL
starts with `Healthy: true` ("assume healthy until first check"). -/
def NewHealthChecker (backendURLs : List String) (now : ℚ) : HealthChecker :=
  { backends :=
      backendURLs.foldl
        (fun m url => fun u =>
          if u = url then some { URL := url, Healthy := true, LastCheck := 0 }
          else m u)
        (fun _ => none)
    startTime := now }

/-- `HealthChecker.AddBackend` (health.go lines 92–101): insert with
`Healthy: false` ("unknown until first check"), only when absent. -/
def HealthChecker.AddBackend (hc : HealthChecker) (url : String) : HealthChecker :=
  match hc.backends url with
  | some _ => hc
  | none =>
    { hc with
      backends := fun u =>
        if u = url then some { URL := url, Healthy := false, LastCheck := 0 }
        else hc.backends u }

/-- `HealthChecker.IsHealthy` (health.go lines 106–113). -/
def HealthChecker.IsHealthy (hc : HealthChecker) (url : String) : Bool :=
  match hc.backends url with
  | some status => status.Healthy
  | none => false

/-! ## Theorems -/

/-- C4: `bucket.allow` refills to `min(capacity, tokens + elapsed·refillRate)`,
stamps `lastRefill = now`, allows (consuming exactly one token) iff the
refilled count is at least 1, and leaves the token count unchanged on denial. -/
theorem bucket_allow_spec (b : Bucket) (now : ℚ) :
    (b.refill now).tokens
        = min b.maxTokens (b.tokens + (now - b.lastRefill) * b.refillRate) ∧
    (b.refill now).lastRefill = now ∧
    ((b.allow now).1 = true ↔ 1 ≤ (b.refill now).tokens) ∧
    (b.allow now).2.tokens =
      (if 1 ≤ (b.refill now).tokens then (b.refill now).tokens - 1
       else (b.refill now).tokens) := by
  refine ⟨?_, rfl, ?_, ?_⟩
  · simp only [Bucket.refill]
    split
    · next h => exact (min_eq_left (le_of_lt h)).symm
    · next h => exact (min_eq_right (not_lt.mp h)).symm
  · simp only [Bucket.allow, ge_iff_le]
    split <;> simp_all
  · simp only [Bucket.allow, ge_iff_le]
    split <;> simp_all

/-- `Chain` is the right fold of stage application: the descending Go loop
produces `s1 (s2 (… sk h))`. -/
theorem chain_eq_foldr {H : Type} (h : H) (ms : List (H → H)) :
    Chain h ms = ms.foldr (fun m acc => m acc) h := by
  simp [Chain, List.foldl_reverse]

/-- A chained stack of tracing stages over an inner handler that appends a
fixed block `t` produces the declared-order request events, then `t`, then
the response events in reverse declared order. -/
theorem chain_trace_general (k : Nat) :
    ∀ (g : TraceHandler) (t : List TraceEvent), (∀ log, g log = log ++ t) →
      ∀ log, Chain g ((List.range k).map traceStage) log =
        log ++ ((List.range k).map TraceEvent.enter) ++ t ++
          ((List.range k).map TraceEvent.exit).reverse := by
  induction k with
  | zero =>
    intro g t hg log
    simpa [Chain] using hg log
  | succ k ih =>
    intro g t hg log
    rw [List.range_succ, List.map_append, chain_eq_foldr, List.foldr_append]
    have h1 : List.foldr (fun m acc => m acc) g (List.map traceStage [k])
        = traceStage k g := rfl
    rw [h1, ← chain_eq_foldr]
    have hg2 : ∀ log, traceStage k g log =
        log ++ (TraceEvent.enter k :: (t ++ [TraceEvent.exit k])) := by
      intro log
      simp [traceStage, hg]
    rw [ih (traceStage k g) _ hg2 log]
    simp [List.reverse_append, List.append_assoc]

/-- C5: `Chain(h, s1, …, sk)` equals `s1(s2(…sk(h)…))`, and on a request the
stages fire in declared order, then the terminal handler, then the stages in
reverse order on the response. -/
theorem chain_spec :
    (∀ (H : Type) (h : H) (ms : List (H → H)),
        Chain h ms = ms.foldr (fun m acc => m acc) h) ∧
    (∀ k : Nat,
        Chain coreHandler ((List.range k).map traceStage) [] =
          ((List.range k).map TraceEvent.enter) ++
            (TraceEvent.core :: ((List.range k).map TraceEvent.exit).reverse)) := by
  constructor
  · intro H h ms
    exact chain_eq_foldr h ms
  · intro k
    have hcore : ∀ log, coreHandler log = log ++ [TraceEvent.core] := fun _ => rfl
    simpa using chain_trace_general k coreHandler [TraceEvent.core] hcore []

/-- After the recording phase observes a status below 500, the breaker is
closed with both counters cleared. -/
theorem record_success (cb : CircuitBreaker) (now : ℚ) (backend : String)
    (status : Nat) (h : status < 500) :
    (cb.record now backend status).state = CircuitState.StateClosed ∧
    (cb.record now backend status).failureCount = 0 ∧
    (cb.record now backend status).totalCount = 0 := by
  simp [CircuitBreaker.record, Nat.not_le.mpr h]

/-- The breaker pre-check only ever rejects with 503. -/
theorem preCheck_reject_is_503 (cb : CircuitBreaker) (now : ℚ) (s : Nat)
    (h : (cb.preCheck now).2 = some s) : s = 503 := by
  unfold CircuitBreaker.preCheck at h
  split at h
  · split at h <;> simp_all
  · simp_all

/-- C6: whenever a request finishes the circuit-breaker middleware with a
final observed status below 500, the breaker ends up CLOSED with
`failureCount = 0` and the window total reset, from any starting state. -/
theorem breaker_success_closes (cb : CircuitBreaker) (tCheck tRecord : ℚ)
    (backend : String) (innerStatus : Nat)
    (h : (cb.middlewareStep tCheck tRecord backend innerStatus).responseStatus < 500) :
    (cb.middlewareStep tCheck tRecord backend innerStatus).cb.state
        = CircuitState.StateClosed ∧
    (cb.middlewareStep tCheck tRecord backend innerStatus).cb.failureCount = 0 ∧
    (cb.middlewareStep tCheck tRecord backend innerStatus).cb.totalCount = 0 := by
  rcases hpc : cb.preCheck tCheck with ⟨cb1, s⟩
  cases s with
  | some v =>
    have hv : v = 503 := preCheck_reject_is_503 cb tCheck v (by rw [hpc])
    subst hv
    have hstep : cb.middlewareStep tCheck tRecord backend innerStatus
        = ⟨cb1, 503, false⟩ := by
      unfold CircuitBreaker.middlewareStep
      rw [hpc]
    rw [hstep] at h
    simp at h
  | none =>
    have hstep : cb.middlewareStep tCheck tRecord backend innerStatus
        = ⟨cb1.record tRecord backend innerStatus, innerStatus, true⟩ := by
      unfold CircuitBreaker.middlewareStep
      rw [hpc]
    rw [hstep] at h ⊢
    exact record_success cb1 tRecord backend innerStatus h

/-- Witness for `breaker_success_closes` at a concrete breaker and request. -/
theorem breaker_success_closes_witness :
    (CircuitBreaker.middlewareStep
        ⟨CircuitState.StateOpen, 4, 5, 30, 0, none, 9⟩ 100 100 "b" 200).cb.state
      = CircuitState.StateClosed ∧
    (CircuitBreaker.middlewareStep
        ⟨CircuitState.StateOpen, 4, 5, 30, 0, none, 9⟩ 100 100 "b" 200).cb.failureCount = 0 ∧
    (CircuitBreaker.middlewareStep
        ⟨CircuitState.StateOpen, 4, 5, 30, 0, none, 9⟩ 100 100 "b" 200).cb.totalCount = 0 :=
  breaker_success_closes ⟨CircuitState.StateOpen, 4, 5, 30, 0, none, 9⟩ 100 100 "b" 200
    (by norm_num [CircuitBreaker.middlewareStep, CircuitBreaker.preCheck])

/-- C7: with the breaker OPEN, a request inside the timeout window is
answered 503 without invoking the inner chain and leaves the breaker
untouched; past the timeout the pre-check moves the breaker to HALF_OPEN
and the request goes through to the inner chain. -/
theorem breaker_open_gate (cb : CircuitBreaker) (tCheck tRecord : ℚ)
    (backend : String) (innerStatus : Nat)
    (hOpen : cb.state = CircuitState.StateOpen) :
    (tCheck - cb.lastFailure ≤ cb.timeout →
        cb.preCheck tCheck = (cb, some 503) ∧
        cb.middlewareStep tCheck tRecord backend innerStatus = ⟨cb, 503, false⟩) ∧
    (tCheck - cb.lastFailure > cb.timeout →
        (cb.preCheck tCheck).1.state = CircuitState.StateHalfOpen ∧
        (cb.preCheck tCheck).2 = none ∧
        (cb.middlewareStep tCheck tRecord backend innerStatus).innerInvoked = true ∧
        (cb.middlewareStep tCheck tRecord backend innerStatus).responseStatus
          = innerStatus) := by
  constructor
  · intro hle
    have hpc : cb.preCheck tCheck = (cb, some 503) := by
      unfold CircuitBreaker.preCheck
      rw [hOpen]
      simp [not_lt.mpr hle]
    refine ⟨hpc, ?_⟩
    unfold CircuitBreaker.middlewareStep
    rw [hpc]
  · intro hgt
    have hpc : cb.preCheck tCheck =
        ({ cb with state := CircuitState.StateHalfOpen }, none) := by
      unfold CircuitBreaker.preCheck
      rw [hOpen]
      simp [hgt]
    refine ⟨by rw [hpc], by rw [hpc], ?_, ?_⟩ <;>
      · unfold CircuitBreaker.middlewareStep
        rw [hpc]

/-- Witness for `breaker_open_gate`: a breaker opened at time 0 with a 30 s
timeout rejects at time 5 and lets a probe through at time 40. -/
theorem breaker_open_gate_witness :
    CircuitBreaker.middlewareStep
        ⟨CircuitState.StateOpen, 5, 5, 30, 0, none, 5⟩ 5 5 "b" 200
      = ⟨⟨CircuitState.StateOpen, 5, 5, 30, 0, none, 5⟩, 503, false⟩ ∧
    (CircuitBreaker.middlewareStep
        ⟨CircuitState.StateOpen, 5, 5, 30, 0, none, 5⟩ 40 40 "b" 200).innerInvoked
      = true :=
  ⟨((breaker_open_gate ⟨CircuitState.StateOpen, 5, 5, 30, 0, none, 5⟩ 5 5 "b" 200
      rfl).1 (by norm_num)).2,
   ((breaker_open_gate ⟨CircuitState.StateOpen, 5, 5, 30, 0, none, 5⟩ 40 40 "b" 200
      rfl).2 (by norm_num)).2.2.1⟩

/-- C1 (code evaluated at the failing input): proxying `GET /api/v1/ping`
with selected backend `http://127.0.0.1:9001` forwards the request with only
the `X-Forwarded-Host` and `X-Gateway` request headers added and leaves the
response-header map untouched, so a later stage reading the
`X-Proxy-Backend` response header obtains `""`, not the backend URL. -/
theorem proxy_backend_header_not_set :
    proxyHandle "http://127.0.0.1:9001" true "client.example"
        HeaderMap.empty HeaderMap.empty
      = ProxyOutcome.forward
          ((HeaderMap.empty.set "X-Forwarded-Host" "client.example").set
            "X-Gateway" "tanmay-gateway")
          HeaderMap.empty ∧
    HeaderMap.empty.get "X-Proxy-Backend" = "" ∧
    "http://127.0.0.1:9001" ≠ "" := by
  refine ⟨?_, rfl, by decide⟩
  simp [proxyHandle]

/-- The accumulated `backends` map built by `NewHealthChecker`'s loop:
configured URLs map to a healthy entry, everything else to the accumulator. -/
theorem newHealthChecker_lookup (urls : List String)
    (m : String → Option BackendStatus) (url : String) :
    (urls.foldl
        (fun m url => fun u =>
          if u = url then some { URL := url, Healthy := true, LastCheck := 0 }
          else m u)
        m) url
      = if url ∈ urls then some { URL := url, Healthy := true, LastCheck := 0 }
        else m url := by
  induction urls generalizing m with
  | nil => simp
  | cons v rest ih =>
    simp only [List.foldl_cons, ih, List.mem_cons]
    by_cases hv : url ∈ rest
    · simp [hv]
    · by_cases he : url = v
      · subst he
        simp [hv]
      · simp [hv, he]

/-- C10: URLs given to `NewHealthChecker` start healthy; a URL absent from
the registry becomes unhealthy when registered through `AddBackend`; and
`IsHealthy` is `false` for unregistered URLs. -/
theorem health_initial_states :
    (∀ (urls : List String) (now : ℚ) (url : String), url ∈ urls →
        (NewHealthChecker urls now).IsHealthy url = true) ∧
    (∀ (hc : HealthChecker) (url : String), hc.backends url = none →
        (hc.AddBackend url).IsHealthy url = false) ∧
    (∀ (hc : HealthChecker) (url : String), hc.backends url = none →
        hc.IsHealthy url = false) := by
  refine ⟨?_, ?_, ?_⟩
  · intro urls now url hmem
    simp [HealthChecker.IsHealthy, NewHealthChecker, newHealthChecker_lookup, hmem]
  · intro hc url hnone
    simp [HealthChecker.IsHealthy, HealthChecker.AddBackend, hnone]
  · intro hc url hnone
    simp [HealthChecker.IsHealthy, hnone]

/-- An empty health registry, used to witness `health_initial_states`. -/
def hcEmpty : HealthChecker :=
  { backends := fun _ => none, startTime := 0 }

/-- Witness for `health_initial_states` on concrete URLs. -/
theorem health_initial_states_witness :
    (NewHealthChecker ["http://a:9001"] 0).IsHealthy "http://a:9001" = true ∧
    (hcEmpty.AddBackend "http://b:9002").IsHealthy "http://b:9002" = false ∧
    hcEmpty.IsHealthy "http://c:9003" = false :=
  ⟨health_initial_states.1 ["http://a:9001"] 0 "http://a:9001" (by simp),
   health_initial_states.2.1 hcEmpty "http://b:9002" rfl,
   health_initial_states.2.2 hcEmpty "http://c:9003" rfl⟩

/-- Analyzer output with data for only one of two backends, exhibiting the
non-uniform placeholder weight after normalization. -/
def c2Baselines : String → Option BackendBaseline := fun b =>
  if b = "http://b:9002" then
    some { Backend := "http://b:9002", MeanLatencyMs := 1000, MeanErrorRate := 0,
           StdDevError := 0, SampleSize := 2 }
  else none

/-- Unfolding equation for `Rebalance`. -/
theorem Rebalance_eq (backends : List String)
    (getB : String → Option BackendBaseline) :
    Rebalance backends getB =
      (if ((backends.map (fun b => (b, rawWeight (getB b)))).map
            (fun p => p.2)).sum > 0
       then (backends.map (fun b => (b, rawWeight (getB b)))).map
         (fun p => (p.1,
           p.2 / ((backends.map (fun b => (b, rawWeight (getB b)))).map
                    (fun p => p.2)).sum))
       else backends.map (fun b => (b, rawWeight (getB b)))) := rfl

/-- C2 counterexample: on a 2-backend route where only one backend has a
baseline (1000 ms mean latency, zero errors, 2 samples), the backend with no
baseline is published at weight 1000/1001, not the uniform placeholder
1/n = 1/2. -/
theorem rebalance_placeholder_cex :
    c2Baselines "http://a:9001" = none ∧
    Rebalance ["http://a:9001", "http://b:9002"] c2Baselines
      = [("http://a:9001", 1000 / 1001), ("http://b:9002", 1 / 1001)] ∧
    ((1000 : ℚ) / 1001) ≠ 1 / 2 := by
  have ha : c2Baselines "http://a:9001" = none := rfl
  have hb : c2Baselines "http://b:9002"
      = some { Backend := "http://b:9002", MeanLatencyMs := 1000,
               MeanErrorRate := 0, StdDevError := 0, SampleSize := 2 } := rfl
  refine ⟨ha, ?_, by norm_num⟩
  rw [Rebalance_eq]
  simp only [List.map_cons, List.map_nil, ha, hb, rawWeight, computeWeight,
    List.sum_cons, List.sum_nil]
  norm_num

/-- C2 amended: a backend with a missing baseline or fewer than 2 samples is
given the raw placeholder weight 1 before normalization; when every backend
of the route lacks such data, the published table is the uniform 1/n
weights. -/
theorem rebalance_uniform_when_no_data (backends : List String)
    (getB : String → Option BackendBaseline) (hne : backends ≠ [])
    (hall : ∀ b ∈ backends,
        getB b = none ∨ ∃ bb, getB b = some bb ∧ bb.SampleSize < 2) :
    (∀ b ∈ backends, rawWeight (getB b) = 1) ∧
    Rebalance backends getB
      = backends.map (fun b => (b, 1 / (backends.length : ℚ))) := by
  have hraw : ∀ b ∈ backends, rawWeight (getB b) = 1 := by
    intro b hb
    rcases hall b hb with h | ⟨bb, hbb, hss⟩
    · simp [rawWeight, h]
    · simp [rawWeight, hbb, hss]
  refine ⟨hraw, ?_⟩
  have hmap : backends.map (fun b => (b, rawWeight (getB b)))
      = backends.map (fun b => (b, (1 : ℚ))) :=
    List.map_congr_left (fun b hb => by rw [hraw b hb])
  have hlen : 0 < backends.length := List.length_pos.mpr hne
  have hsum : ((backends.map (fun b => (b, (1 : ℚ)))).map (fun p => p.2)).sum
      = (backends.length : ℚ) := by
    rw [List.map_map]
    simp [Function.comp_def]
  rw [Rebalance_eq, hmap, hsum,
    if_pos (show ((backends.length : ℚ)) > 0 by exact_mod_cast hlen),
    List.map_map]
  exact List.map_congr_left (fun b _ => by simp [Function.comp_def])

/-- Witness for `rebalance_uniform_when_no_data`: two backends, no analyzer
data at all, published weights are 1/2 and 1/2. -/
theorem rebalance_uniform_when_no_data_witness :
    Rebalance ["http://a:9001", "http://b:9002"] (fun _ => none)
      = [("http://a:9001", 1 / 2), ("http://b:9002", 1 / 2)] := by
  have h := (rebalance_uniform_when_no_data ["http://a:9001", "http://b:9002"]
    (fun _ => none) (by simp) (fun b _ => Or.inl rfl)).2
  simpa using h

/-- `computeWeight` is strictly positive: the clamped latency is at least 1
and the clamped reliability at least 0.01. -/
theorem computeWeight_pos (lat er : ℚ) : 0 < computeWeight lat er := by
  have heq : computeWeight lat er
      = (1 / (if lat < 1 then 1 else lat)) *
        (if 1 - er < 0.01 then 0.01 else 1 - er) := rfl
  rw [heq]
  have havg : (0 : ℚ) < (if lat < 1 then 1 else lat) := by
    split
    · norm_num
    · next h => linarith [not_lt.mp h]
  have hrel : (0 : ℚ) < (if 1 - er < 0.01 then 0.01 else 1 - er) := by
    split
    · norm_num
    · next h => linarith [not_lt.mp h]
  exact mul_pos (one_div_pos.mpr havg) hrel

/-- Every raw rebalance weight is strictly positive. -/
theorem rawWeight_pos (ob : Option BackendBaseline) : 0 < rawWeight ob := by
  cases ob with
  | none => norm_num [rawWeight]
  | some b =>
    simp only [rawWeight]
    split
    · norm_num
    · exact computeWeight_pos b.MeanLatencyMs b.MeanErrorRate

/-- C3: after `Rebalance` on a route with at least one backend, every
published weight lies in [0, 1] and the published weights sum to exactly 1. -/
theorem rebalance_weights_normalized (backends : List String)
    (getB : String → Option BackendBaseline) (hne : backends ≠ []) :
    (∀ w ∈ Rebalance backends getB, 0 ≤ w.2 ∧ w.2 ≤ 1) ∧
    ((Rebalance backends getB).map (fun p => p.2)).sum = 1 := by
  set nw := backends.map (fun b => (b, rawWeight (getB b))) with hnw
  set T := (nw.map (fun p => p.2)).sum with hT
  have hpos : ∀ x ∈ nw.map (fun p => p.2), 0 < x := by
    intro x hx
    rw [hnw, List.map_map] at hx
    obtain ⟨b, _, rfl⟩ := List.mem_map.mp hx
    exact rawWeight_pos (getB b)
  have hTpos : 0 < T := by
    rw [hT]
    refine List.sum_pos _ hpos ?_
    simp [hnw, hne]
  have hreb : Rebalance backends getB = nw.map (fun p => (p.1, p.2 / T)) := by
    rw [Rebalance_eq, ← hnw, ← hT, if_pos hTpos]
  constructor
  · intro w hw
    rw [hreb] at hw
    obtain ⟨p, hp, rfl⟩ := List.mem_map.mp hw
    have hp2 : 0 < p.2 := hpos p.2 (List.mem_map_of_mem _ hp)
    have hle : p.2 ≤ T :=
      List.single_le_sum (fun x hx => le_of_lt (hpos x hx)) p.2
        (List.mem_map_of_mem _ hp)
    exact ⟨div_nonneg (le_of_lt hp2) (le_of_lt hTpos), (div_le_one hTpos).mpr hle⟩
  · rw [hreb, List.map_map]
    have hcomp : ((fun p : String × ℚ => p.2) ∘ fun p : String × ℚ => (p.1, p.2 / T))
        = fun p : String × ℚ => p.2 * T⁻¹ := by
      funext p
      simp [div_eq_mul_inv]
    rw [hcomp, List.sum_map_mul_right, ← hT, mul_inv_cancel₀ (ne_of_gt hTpos)]

/-- Witness for `rebalance_weights_normalized` on a single-backend route. -/
theorem rebalance_weights_normalized_witness :
    ((Rebalance ["http://a:9001"] (fun _ => none)).map (fun p => p.2)).sum = 1 :=
  (rebalance_weights_normalized ["http://a:9001"] (fun _ => none) (by simp)).2

/-- The clamped adaptive limit stays inside `[MinLimit, MaxLimit]` whenever
that interval is nonempty. -/
theorem adaptiveLimit_bounds (cfg : AdaptiveRateLimitConfig) (b : RouteBaseline)
    (h : cfg.MinLimit ≤ cfg.MaxLimit) :
    cfg.MinLimit ≤ adaptiveLimit cfg b ∧ adaptiveLimit cfg b ≤ cfg.MaxLimit := by
  have heq : adaptiveLimit cfg b =
      if (if b.MeanRate * cfg.Multiplier < cfg.MinLimit then cfg.MinLimit
          else b.MeanRate * cfg.Multiplier) > cfg.MaxLimit then cfg.MaxLimit
      else (if b.MeanRate * cfg.Multiplier < cfg.MinLimit then cfg.MinLimit
            else b.MeanRate * cfg.Multiplier) := rfl
  rw [heq]
  split_ifs <;> constructor <;> linarith

/-- The invariant every reachable `routeLimiters` map satisfies: refill rate
is always capacity divided by 60 (the map starts empty and only `rebalance`
inserts). -/
def limiterMapInv (m : String → Option RateLimiter) : Prop :=
  ∀ r rl, m r = some rl → rl.refillRate = rl.maxTokens / 60

/-- Unfolding equation for `rebalanceStep`. -/
theorem rebalanceStep_eq (cfg : AdaptiveRateLimitConfig)
    (m : String → Option RateLimiter) (e : String × RouteBaseline) :
    rebalanceStep cfg m e =
      if e.2.SampleSize < 5 then m
      else
        match m e.1 with
        | some existing =>
          if existing.maxTokens ≠ adaptiveLimit cfg e.2 then
            fun r => if r = e.1 then
              some (NewRateLimiter (adaptiveLimit cfg e.2) (adaptiveLimit cfg e.2 / 60))
            else m r
          else m
        | none =>
          fun r => if r = e.1 then
            some (NewRateLimiter (adaptiveLimit cfg e.2) (adaptiveLimit cfg e.2 / 60))
          else m r := rfl

/-- A baseline entry with fewer than 5 samples is skipped by the loop. -/
theorem rebalanceStep_apply_skip (cfg : AdaptiveRateLimitConfig)
    (m : String → Option RateLimiter) (e : String × RouteBaseline) (r : String)
    (h5 : e.2.SampleSize < 5) : rebalanceStep cfg m e r = m r := by
  simp [rebalanceStep_eq, h5]

/-- Loop iteration when the route has no limiter yet: install a fresh one. -/
theorem rebalanceStep_apply_none (cfg : AdaptiveRateLimitConfig)
    (m : String → Option RateLimiter) (e : String × RouteBaseline) (r : String)
    (h5 : ¬ e.2.SampleSize < 5) (hm : m e.1 = none) :
    rebalanceStep cfg m e r =
      if r = e.1 then
        some (NewRateLimiter (adaptiveLimit cfg e.2) (adaptiveLimit cfg e.2 / 60))
      else m r := by
  simp [rebalanceStep_eq, h5, hm]

/-- Loop iteration when the route already has a limiter: replace it only if
the limit changed. -/
theorem rebalanceStep_apply_some (cfg : AdaptiveRateLimitConfig)
    (m : String → Option RateLimiter) (e : String × RouteBaseline) (r : String)
    (existing : RateLimiter)
    (h5 : ¬ e.2.SampleSize < 5) (hm : m e.1 = some existing) :
    rebalanceStep cfg m e r =
      if existing.maxTokens ≠ adaptiveLimit cfg e.2 then
        (if r = e.1 then
          some (NewRateLimiter (adaptiveLimit cfg e.2) (adaptiveLimit cfg e.2 / 60))
         else m r)
      else m r := by
  by_cases hmax : existing.maxTokens ≠ adaptiveLimit cfg e.2
  · simp [rebalanceStep_eq, h5, hm, hmax]
  · simp [rebalanceStep_eq, h5, hm, hmax]

/-- One rebalance-loop iteration preserves the refill-rate invariant. -/
theorem rebalanceStep_inv (cfg : AdaptiveRateLimitConfig)
    (m : String → Option RateLimiter) (e : String × RouteBaseline)
    (h : limiterMapInv m) : limiterMapInv (rebalanceStep cfg m e) := by
  intro r rl hr
  by_cases h5 : e.2.SampleSize < 5
  · rw [rebalanceStep_apply_skip cfg m e r h5] at hr
    exact h r rl hr
  · rcases hm : m e.1 with _ | existing
    · rw [rebalanceStep_apply_none cfg m e r h5 hm] at hr
      by_cases hreq : r = e.1
      · rw [if_pos hreq] at hr
        cases hr with
        | refl => rfl
      · rw [if_neg hreq] at hr
        exact h r rl hr
    · rw [rebalanceStep_apply_some cfg m e r existing h5 hm] at hr
      by_cases hmax : existing.maxTokens ≠ adaptiveLimit cfg e.2
      · rw [if_pos hmax] at hr
        by_cases hreq : r = e.1
        · rw [if_pos hreq] at hr
          cases hr with
          | refl => rfl
        · rw [if_neg hreq] at hr
          exact h r rl hr
      · rw [if_neg hmax] at hr
        exact h r rl hr

/-- One rebalance-loop iteration leaves every other route untouched. -/
theorem rebalanceStep_other (cfg : AdaptiveRateLimitConfig)
    (m : String → Option RateLimiter) (e : String × RouteBaseline)
    (r : String) (hr : r ≠ e.1) : rebalanceStep cfg m e r = m r := by
  by_cases h5 : e.2.SampleSize < 5
  · exact rebalanceStep_apply_skip cfg m e r h5
  · rcases hm : m e.1 with _ | existing
    · rw [rebalanceStep_apply_none cfg m e r h5 hm, if_neg hr]
    · rw [rebalanceStep_apply_some cfg m e r existing h5 hm]
      by_cases hmax : existing.maxTokens ≠ adaptiveLimit cfg e.2
      · rw [if_pos hmax, if_neg hr]
      · rw [if_neg hmax]

/-- Routes not named in the baseline snapshot are untouched by `rebalance`. -/
theorem rebalance_not_mem (cfg : AdaptiveRateLimitConfig)
    (baselines : List (String × RouteBaseline)) :
    ∀ (m : String → Option RateLimiter) (r : String),
      r ∉ baselines.map (fun p => p.1) → rebalance cfg baselines m r = m r := by
  induction baselines with
  | nil => intro m r _; rfl
  | cons e rest ih =>
    intro m r hr
    simp only [List.map_cons, List.mem_cons, not_or] at hr
    have : rebalance cfg (e :: rest) m = rebalance cfg rest (rebalanceStep cfg m e) := rfl
    rw [this, ih _ r hr.2, rebalanceStep_other cfg m e r hr.1]

/-- Processing a route's own baseline entry (with enough samples) leaves its
limiter at capacity `adaptiveLimit` and refill `adaptiveLimit / 60`. -/
theorem rebalanceStep_self (cfg : AdaptiveRateLimitConfig)
    (m : String → Option RateLimiter) (route : String) (b : RouteBaseline)
    (hss : ¬ b.SampleSize < 5) (hinv : limiterMapInv m) :
    ∃ rl, rebalanceStep cfg m (route, b) route = some rl ∧
      rl.maxTokens = adaptiveLimit cfg b ∧
      rl.refillRate = adaptiveLimit cfg b / 60 := by
  rcases hm : m route with _ | existing
  · rw [rebalanceStep_apply_none cfg m (route, b) route hss hm, if_pos rfl]
    exact ⟨NewRateLimiter (adaptiveLimit cfg b) (adaptiveLimit cfg b / 60),
      rfl, rfl, rfl⟩
  · rw [rebalanceStep_apply_some cfg m (route, b) route existing hss hm]
    by_cases hmax : existing.maxTokens ≠ adaptiveLimit cfg b
    · rw [if_pos hmax, if_pos rfl]
      exact ⟨NewRateLimiter (adaptiveLimit cfg b) (adaptiveLimit cfg b / 60),
        rfl, rfl, rfl⟩
    · rw [if_neg hmax]
      refine ⟨existing, hm, not_not.mp hmax, ?_⟩
      rw [hinv route existing hm, not_not.mp hmax]

/-- The rebalance fold, restricted to a route present in the snapshot with
enough samples, publishes the clamped limit for that route. -/
theorem rebalance_mem_spec (cfg : AdaptiveRateLimitConfig)
    (baselines : List (String × RouteBaseline)) :
    ∀ (m : String → Option RateLimiter) (route : String) (b : RouteBaseline),
      (route, b) ∈ baselines → ¬ b.SampleSize < 5 →
      (baselines.map (fun p => p.1)).Nodup → limiterMapInv m →
      ∃ rl, rebalance cfg baselines m route = some rl ∧
        rl.maxTokens = adaptiveLimit cfg b ∧
        rl.refillRate = adaptiveLimit cfg b / 60 := by
  induction baselines with
  | nil =>
    intro m route b hmem
    cases hmem
  | cons e rest ih =>
    intro m route b hmem hss hnodup hinv
    rw [List.map_cons] at hnodup
    have hnd := List.nodup_cons.mp hnodup
    have hfold : rebalance cfg (e :: rest) m
        = rebalance cfg rest (rebalanceStep cfg m e) := rfl
    rcases List.mem_cons.mp hmem with he | hrest
    · subst he
      rw [hfold, rebalance_not_mem cfg rest _ route hnd.1]
      exact rebalanceStep_self cfg m route b hss hinv
    · rw [hfold]
      exact ih (rebalanceStep cfg m e) route b hrest hss hnd.2
        (rebalanceStep_inv cfg m e hinv)

/-- C8: after `AdaptiveRateLimiter.rebalance`, every route whose baseline has
at least 5 samples has its limit equal to `MeanRate × Multiplier` clamped
into `[MinLimit, MaxLimit]` (hence inside that interval when it is
nonempty), and its limiter holds `capacity = limit` and
`refill = limit / 60` tokens per second. -/
theorem adaptive_rebalance_spec (cfg : AdaptiveRateLimitConfig)
    (baselines : List (String × RouteBaseline))
    (m : String → Option RateLimiter) (route : String) (b : RouteBaseline)
    (hmem : (route, b) ∈ baselines)
    (hss : 5 ≤ b.SampleSize)
    (hnodup : (baselines.map (fun p => p.1)).Nodup)
    (hminmax : cfg.MinLimit ≤ cfg.MaxLimit)
    (hinv : limiterMapInv m) :
    cfg.MinLimit ≤ adaptiveLimit cfg b ∧ adaptiveLimit cfg b ≤ cfg.MaxLimit ∧
    ∃ rl, rebalance cfg baselines m route = some rl ∧
      rl.maxTokens = adaptiveLimit cfg b ∧
      rl.refillRate = adaptiveLimit cfg b / 60 := by
  obtain ⟨h1, h2⟩ := adaptiveLimit_bounds cfg b hminmax
  exact ⟨h1, h2,
    rebalance_mem_spec cfg baselines m route b hmem (Nat.not_lt.mpr hss)
      hnodup hinv⟩

/-- Concrete adaptive-limiter configuration for the witness. -/
def c8cfg : AdaptiveRateLimitConfig :=
  { Enabled := true, Multiplier := 3, MinLimit := 10, MaxLimit := 10000,
    LearningPeriod := 3600 }

/-- Concrete route baseline (100 req/min over 5 buckets) for the witness. -/
def c8baseline : RouteBaseline :=
  { Route := "/api/v1", MeanRate := 100, StdDevRate := 0, MeanErrorRate := 0,
    StdDevError := 0, MeanLatencyMs := 0, StdDevLatency := 0,
    P99LatencyMs := 0, SampleSize := 5 }

/-- Witness for `adaptive_rebalance_spec` at a one-route snapshot starting
from an empty limiter map. -/
theorem adaptive_rebalance_spec_witness :
    ∃ rl, rebalance c8cfg [("/api/v1", c8baseline)] (fun _ => none) "/api/v1"
        = some rl ∧
      rl.maxTokens = adaptiveLimit c8cfg c8baseline ∧
      rl.refillRate = adaptiveLimit c8cfg c8baseline / 60 :=
  (adaptive_rebalance_spec c8cfg [("/api/v1", c8baseline)] (fun _ => none)
    "/api/v1" c8baseline (by simp) (by norm_num [c8baseline]) (by simp)
    (by norm_num [c8cfg]) (fun r rl h => Option.noConfusion h)).2.2

/-- Two route prefixes that match the same path and have the same length are
equal: the matched set contains at most one prefix per length. -/
theorem routeMatches_eq_of_length (p₁ p₂ path : List Char)
    (h₁ : routeMatches p₁ path = true) (h₂ : routeMatches p₂ path = true)
    (hlen : p₁.length = p₂.length) : p₁ = p₂ := by
  simp only [routeMatches, Bool.or_eq_true, List.isPrefixOf_iff_prefix,
    beq_iff_eq] at h₁ h₂
  rcases h₁ with h₁ | h₁ <;> rcases h₂ with h₂ | h₂
  · have hl : (p₁ ++ [ '/' ]).length = (p₂ ++ [ '/' ]).length := by
      simp [hlen]
    have hpre := List.prefix_of_prefix_length_le h₁ h₂ (le_of_eq hl)
    exact List.append_cancel_right (hpre.eq_of_length hl)
  · subst h₂
    have hle := h₁.length_le
    simp only [List.length_append, List.length_cons, List.length_nil] at hle
    omega
  · subst h₁
    have hle := h₂.length_le
    simp only [List.length_append, List.length_cons, List.length_nil] at hle
    omega
  · exact h₁.symm.trans h₂

/-- On a length-descending list, `firstMatch` returns the raw path when
nothing matches, and otherwise a maximal-length matching configured prefix. -/
theorem firstMatch_spec (path : List Char) :
    ∀ l : List (List Char), List.Sorted lenGE l →
      ((∀ q ∈ l, routeMatches q path = false) → firstMatch l path = path) ∧
      (∀ q ∈ l, routeMatches q path = true →
        firstMatch l path ∈ l ∧ routeMatches (firstMatch l path) path = true ∧
        ∀ q2 ∈ l, routeMatches q2 path = true →
          q2.length ≤ (firstMatch l path).length) := by
  intro l
  induction l with
  | nil =>
    intro _
    exact ⟨fun _ => rfl, fun q hq => absurd hq (List.not_mem_nil q)⟩
  | cons p rest ih =>
    intro hs
    have hps : ∀ q ∈ rest, q.length ≤ p.length :=
      fun q hq => List.rel_of_sorted_cons hs q hq
    obtain ⟨ih1, ih2⟩ := ih hs.of_cons
    by_cases hp : routeMatches p path = true
    · have hfm : firstMatch (p :: rest) path = p := by
        simp [firstMatch, hp]
      constructor
      · intro hall
        have := hall p (List.mem_cons_self p rest)
        rw [hp] at this
        cases this
      · intro q _ _
        rw [hfm]
        refine ⟨List.mem_cons_self p rest, hp, ?_⟩
        intro q2 hq2 _
        rcases List.mem_cons.mp hq2 with rfl | hq2'
        · exact le_refl _
        · exact hps q2 hq2'
    · have hfm : firstMatch (p :: rest) path = firstMatch rest path := by
        simp [firstMatch, hp]
      constructor
      · intro hall
        rw [hfm]
        exact ih1 (fun q hq => hall q (List.mem_cons_of_mem p hq))
      · intro q hq hmq
        have hq' : q ∈ rest := by
          rcases List.mem_cons.mp hq with rfl | h
          · exact absurd hmq hp
          · exact h
        obtain ⟨m1, m2, m3⟩ := ih2 q hq' hmq
        rw [hfm]
        refine ⟨List.mem_cons_of_mem p m1, m2, ?_⟩
        intro q2 hq2 hmq2
        rcases List.mem_cons.mp hq2 with rfl | hq2'
        · exact absurd hmq2 hp
        · exact m3 q2 hq2' hmq2

/-- Any two length-descending arrangements of the same prefixes (all valid
outcomes of `sort.Slice`'s unstable sort) give the same first match. -/
theorem firstMatch_perm (path : List Char) (l₁ l₂ : List (List Char))
    (hp : l₁.Perm l₂) (hs₁ : List.Sorted lenGE l₁)
    (hs₂ : List.Sorted lenGE l₂) :
    firstMatch l₁ path = firstMatch l₂ path := by
  by_cases hex : ∃ q ∈ l₁, routeMatches q path = true
  · obtain ⟨q, hq, hmq⟩ := hex
    obtain ⟨a1, a2, a3⟩ := (firstMatch_spec path l₁ hs₁).2 q hq hmq
    obtain ⟨b1, b2, b3⟩ := (firstMatch_spec path l₂ hs₂).2 q (hp.mem_iff.mp hq) hmq
    have h12 : (firstMatch l₁ path).length ≤ (firstMatch l₂ path).length :=
      b3 _ (hp.mem_iff.mp a1) a2
    have h21 : (firstMatch l₂ path).length ≤ (firstMatch l₁ path).length :=
      a3 _ (hp.mem_iff.mpr b1) b2
    exact routeMatches_eq_of_length _ _ path a2 b2 (le_antisymm h12 h21)
  · push_neg at hex
    have hall₁ : ∀ q ∈ l₁, routeMatches q path = false :=
      fun q hq => Bool.eq_false_iff.mpr (hex q hq)
    have hall₂ : ∀ q ∈ l₂, routeMatches q path = false :=
      fun q hq => Bool.eq_false_iff.mpr (hex q (hp.mem_iff.mpr hq))
    rw [(firstMatch_spec path l₁ hs₁).1 hall₁, (firstMatch_spec path l₂ hs₂).1 hall₂]

/-- The recorder's prefix list is sorted longest-first. -/
theorem sortRoutes_sorted (l : List (List Char)) :
    List.Sorted lenGE (sortRoutes l) :=
  List.sorted_insertionSort lenGE l

/-- The recorder's prefix list is a permutation of the configured prefixes. -/
theorem sortRoutes_perm (l : List (List Char)) : (sortRoutes l).Perm l :=
  List.perm_insertionSort lenGE l

/-- C9: `NormalizeRoute` returns the raw path when no configured prefix
matches, otherwise a longest configured prefix `p` with `path = p` or
`p ++ "/"` a prefix of `path`; and the result is invariant under any
reordering of the configured prefixes. -/
theorem normalize_route_spec (routePrefixes : List (List Char))
    (path : List Char) :
    ((∀ q ∈ routePrefixes, routeMatches q path = false) →
        NormalizeRoute routePrefixes path = path) ∧
    (∀ q ∈ routePrefixes, routeMatches q path = true →
        NormalizeRoute routePrefixes path ∈ routePrefixes ∧
        routeMatches (NormalizeRoute routePrefixes path) path = true ∧
        ∀ q2 ∈ routePrefixes, routeMatches q2 path = true →
          q2.length ≤ (NormalizeRoute routePrefixes path).length) ∧
    (∀ other : List (List Char), other.Perm routePrefixes →
        NormalizeRoute other path = NormalizeRoute routePrefixes path) := by
  have hperm := sortRoutes_perm routePrefixes
  have hsort := sortRoutes_sorted routePrefixes
  obtain ⟨s1, s2⟩ := firstMatch_spec path (sortRoutes routePrefixes) hsort
  refine ⟨?_, ?_, ?_⟩
  · intro hall
    exact s1 (fun q hq => hall q (hperm.mem_iff.mp hq))
  · intro q hq hmq
    obtain ⟨m1, m2, m3⟩ := s2 q (hperm.mem_iff.mpr hq) hmq
    exact ⟨hperm.mem_iff.mp m1, m2,
      fun q2 hq2 hm2 => m3 q2 (hperm.mem_iff.mpr hq2) hm2⟩
  · intro other hop
    exact firstMatch_perm path (sortRoutes other) (sortRoutes routePrefixes)
      ((sortRoutes_perm other).trans (hop.trans hperm.symm))
      (sortRoutes_sorted other) hsort

/-- Witness for `normalize_route_spec`: path `/ab/x` against prefixes
`/a` and `/ab` in either declaration order. -/
theorem normalize_route_spec_witness :
    NormalizeRoute [['/', 'a', 'b'], ['/', 'a']] ['/', 'a', 'b', '/', 'x']
      = NormalizeRoute [['/', 'a'], ['/', 'a', 'b']] ['/', 'a', 'b', '/', 'x'] ∧
    NormalizeRoute [['/', 'a'], ['/', 'a', 'b']] ['/', 'a', 'b', '/', 'x']
      ∈ [['/', 'a'], ['/', 'a', 'b']] ∧
    routeMatches
      (NormalizeRoute [['/', 'a'], ['/', 'a', 'b']] ['/', 'a', 'b', '/', 'x'])
      ['/', 'a', 'b', '/', 'x'] = true :=
  ⟨(normalize_route_spec [['/', 'a'], ['/', 'a', 'b']]
      ['/', 'a', 'b', '/', 'x']).2.2 [['/', 'a', 'b'], ['/', 'a']] (by decide),
   ((normalize_route_spec [['/', 'a'], ['/', 'a', 'b']]
      ['/', 'a', 'b', '/', 'x']).2.1 ['/', 'a', 'b'] (by decide) (by decide)).1,
   ((normalize_route_spec [['/', 'a'], ['/', 'a', 'b']]
      ['/', 'a', 'b', '/', 'x']).2.1 ['/', 'a', 'b'] (by decide) (by decide)).2.1⟩

end Microgate
